import Mathlib

/-!
Verification of the patient-portal backend core: the appointment scheduler
(controllers in the appointment controller file, backed by the prisma models
`appointment` and `doctorAvailability`) and the two authentication stacks
(the `authSession`-based controller in `src/controllers/authController.ts`
and the `oTPCode`/`refreshToken`-based service in
`src/services/authService.ts`).

Conventions of the shallow embedding:
* Strings with decidable equality (cuid ids, CPF digits, ISO dates
  `YYYY-MM-DD`, times `HH:MM`, token strings, OTP codes, messages) are
  abstracted as natural numbers; the code only ever compares them for
  equality, except for the date+time arithmetic in `cancelAppointment`,
  which is modelled exactly in milliseconds with `date` as an epoch-day
  index and `time` as minutes of day.
* A prisma `findFirst`/`findUnique` with filters becomes `List.find?`; a
  prisma `update` by primary key becomes a `List.map` that rewrites the
  rows with that key; `updateMany` likewise; `create` appends or prepends
  a row.  The `oTPCode` table is kept newest-first so that `List.find?`
  realises `findFirst` with `orderBy: createdAt desc`.
* Operations whose writes all sit inside one `prisma.$transaction` (or
  after all the throw sites) are total functions into `Except`; the
  service operations that perform writes before a later throw site
  return the new state next to an `Except` result instead, so partial
  writes are not lost.
* Random generation (codes, session ids, JWTs) and the current clock are
  passed in as parameters.  JWT signature verification is abstracted: the
  claims below only present tokens that the system itself issued inside
  their signature lifetime, for which `jwt.verify` succeeds.
-/

namespace PortalSpec

/-! ## Appointment scheduler: data model (appointment controller source) -/

/-- The contended key: one doctor, one calendar date, one time of day. -/
structure Key where
  doctorId : Nat
  date : Nat
  time : Nat
deriving DecidableEq, Repr

inductive ApptStatus
  | scheduled
  | completed
  | cancelled
  | noShow
deriving DecidableEq, Repr

structure Appt where
  id : Nat
  userId : Nat
  dependentId : Option Nat
  unitId : Nat
  specialtyId : Nat
  key : Key
  notes : Option Nat
  status : ApptStatus
deriving DecidableEq, Repr

/-- One row of `doctorAvailability` (unique on (doctorId, date, timeSlot)). -/
structure SlotRow where
  key : Key
  isBooked : Bool
deriving DecidableEq, Repr

structure Doctor where
  id : Nat
  unitId : Nat
  specialtyId : Nat
  isActive : Bool
deriving DecidableEq, Repr

structure Dependent where
  id : Nat
  userId : Nat
  isActive : Bool
deriving DecidableEq, Repr

/-- The relational store seen by the scheduler.  `nextId` models the
generation of fresh primary keys for appointments. -/
structure Sched where
  doctors : List Doctor
  dependents : List Dependent
  appointments : List Appt
  slots : List SlotRow
  nextId : Nat
deriving DecidableEq, Repr

/-- Errors, one constructor per throw site of the scheduler source.  In the
spec's taxonomy the four slot conflicts are `SlotUnavailable` and
`cancellationWindowClosed` is `CancellationWindowClosed`. -/
inductive SchedErr
  | doctorNotFound
  | dependentNotFound
  | slotTakenByAppointment
  | slotAgendaUnavailable
  | apptNotFoundOrNotEditable
  | newSlotTakenByAppointment
  | newSlotAgendaUnavailable
  | apptNotFoundOrNotCancellable
  | cancellationWindowClosed
deriving DecidableEq, Repr

def findRow (rows : List SlotRow) (k : Key) : Option SlotRow :=
  rows.find? (fun r => decide (r.key = k))

def lookupSlot (s : Sched) (k : Key) : Option SlotRow :=
  findRow s.slots k

def rowsBooked (rows : List SlotRow) (k : Key) : Bool :=
  match findRow rows k with
  | some r => r.isBooked
  | none => false

def slotBooked (s : Sched) (k : Key) : Bool :=
  rowsBooked s.slots k

/-- `updateMany`/keyed `update` on `doctorAvailability`: set `isBooked` on
every row whose key matches (there is at most one, the key is unique). -/
def setSlotBooked (rows : List SlotRow) (k : Key) (b : Bool) : List SlotRow :=
  rows.map (fun r => if r.key = k then { r with isBooked := b } else r)

/-- `findFirst` for a SCHEDULED appointment occupying a key. -/
def schedAt (s : Sched) (k : Key) : Option Appt :=
  s.appointments.find? (fun a => decide (a.key = k) && decide (a.status = ApptStatus.scheduled))

structure CreateReq where
  userId : Nat
  unitId : Nat
  specialtyId : Nat
  doctorId : Nat
  date : Nat
  time : Nat
  dependentId : Option Nat
  notes : Option Nat
deriving DecidableEq, Repr

def reqKey (r : CreateReq) : Key :=
  ⟨r.doctorId, r.date, r.time⟩

/-- The read-and-validate phase of `createAppointment`: doctor belongs to
unit/specialty and is active, the dependent (if given) belongs to the user,
no SCHEDULED appointment occupies the key, and the availability row exists
and is free.  All of this happens before (outside) the transaction. -/
def createPrecheck (s : Sched) (r : CreateReq) : Option SchedErr :=
  if (s.doctors.find? (fun d =>
      decide (d.id = r.doctorId) && decide (d.unitId = r.unitId) &&
      decide (d.specialtyId = r.specialtyId) && d.isActive)).isNone then
    some .doctorNotFound
  else if (r.dependentId.any (fun depId =>
      (s.dependents.find? (fun dep =>
        decide (dep.id = depId) && decide (dep.userId = r.userId) && dep.isActive)).isNone)) then
    some .dependentNotFound
  else if (schedAt s (reqKey r)).isSome then
    some .slotTakenByAppointment
  else
    match lookupSlot s (reqKey r) with
    | none => some .slotAgendaUnavailable
    | some row => if row.isBooked then some .slotAgendaUnavailable else none

/-- The `prisma.$transaction` of `createAppointment`: insert the SCHEDULED
appointment and mark the availability row booked, as one atomic unit. -/
def createCommit (s : Sched) (r : CreateReq) : Sched :=
  { s with
    appointments :=
      s.appointments ++ [⟨s.nextId, r.userId, r.dependentId, r.unitId, r.specialtyId,
        reqKey r, r.notes, .scheduled⟩],
    slots := setSlotBooked s.slots (reqKey r) true,
    nextId := s.nextId + 1 }

/-- `createAppointment` run without interference: checks, then the
transaction. -/
def createAppointment (s : Sched) (r : CreateReq) : Except SchedErr Sched :=
  match createPrecheck s r with
  | some e => .error e
  | none => .ok (createCommit s r)

/-- `findFirst` for an appointment by id, owner, and SCHEDULED status (used
by both `updateAppointment` and `cancelAppointment`). -/
def findScheduled (s : Sched) (uid aid : Nat) : Option Appt :=
  s.appointments.find? (fun a =>
    decide (a.id = aid) && decide (a.userId = uid) && decide (a.status = ApptStatus.scheduled))

/-- The destination key of a reschedule request: parameters not supplied
fall back to the stored values. -/
def destKey (appt : Appt) (dd td : Option Nat) : Key :=
  ⟨appt.key.doctorId, dd.getD appt.key.date, td.getD appt.key.time⟩

/-- The guard from the source: the availability checks run only when a date
or a time was supplied and the supplied pair does not exactly match the
stored values (the source compares the raw request strings with the stored
date/time). -/
def reschedChecksNeeded (appt : Appt) (dd td : Option Nat) : Bool :=
  (dd.isSome || td.isSome) &&
    !(decide (dd = some appt.key.date) && decide (td = some appt.key.time))

/-- The availability checks of `updateAppointment`: when they run they
require no other SCHEDULED appointment at the destination and a free
availability row there. -/
def updatePrecheck (s : Sched) (appt : Appt) (aid : Nat) (dd td : Option Nat) :
    Option SchedErr :=
  if reschedChecksNeeded appt dd td then
    if (s.appointments.find? (fun a =>
        decide (a.key = destKey appt dd td) && decide (a.status = ApptStatus.scheduled) &&
        decide (a.id ≠ aid))).isSome then
      some .newSlotTakenByAppointment
    else
      match lookupSlot s (destKey appt dd td) with
      | none => some .newSlotAgendaUnavailable
      | some row => if row.isBooked then some .newSlotAgendaUnavailable else none
  else
    none

/-- The per-row effect of the appointment `update` of `updateAppointment`:
the row with the updated id receives the supplied date, time, and notes;
fields not supplied keep their stored values. -/
def applyFields (aid : Nat) (dd td nd : Option Nat) (a : Appt) : Appt :=
  if a.id = aid then
    { a with
      key := ⟨a.key.doctorId, dd.getD a.key.date, td.getD a.key.time⟩,
      notes := match nd with | some n => some n | none => a.notes }
  else a

/-- The `prisma.$transaction` of `updateAppointment`: when rescheduling,
free the old row then book the destination row; always rewrite the
appointment's supplied fields. -/
def rescheduleCommit (s : Sched) (appt : Appt) (aid : Nat) (dd td nd : Option Nat) : Sched :=
  { s with
    slots :=
      if dd.isSome || td.isSome then
        setSlotBooked (setSlotBooked s.slots appt.key false) (destKey appt dd td) true
      else
        s.slots,
    appointments := s.appointments.map (applyFields aid dd td nd) }

def updateAppointment (s : Sched) (uid aid : Nat) (dd td nd : Option Nat) :
    Except SchedErr Sched :=
  match findScheduled s uid aid with
  | none => .error .apptNotFoundOrNotEditable
  | some appt =>
    match updatePrecheck s appt aid dd td with
    | some e => .error e
    | none => .ok (rescheduleCommit s appt aid dd td nd)

/-- The appointment's date+time in milliseconds (`date` an epoch-day index,
`time` minutes of day) — the value the source builds with
`new Date(date + T + time)`. -/
def apptMs (k : Key) : Int :=
  (k.date : Int) * 86400000 + (k.time : Int) * 60000

/-- `cancelAppointment`: find the owned SCHEDULED appointment, reject when
fewer than 24 hours remain (`hoursUntilAppointment < 24` is exactly
`apptMs - now < 86400000` ms), else atomically set CANCELLED and free the
availability row. -/
def cancelAppointment (s : Sched) (uid aid : Nat) (now : Int) : Except SchedErr Sched :=
  match findScheduled s uid aid with
  | none => .error .apptNotFoundOrNotCancellable
  | some appt =>
    if apptMs appt.key - now < 86400000 then
      .error .cancellationWindowClosed
    else
      .ok { s with
        appointments := s.appointments.map (fun a =>
          if a.id = aid then { a with status := .cancelled } else a),
        slots := setSlotBooked s.slots appt.key false }

/-! ## Sequential execution -/

inductive SchedOp
  | create (r : CreateReq)
  | reschedule (uid aid : Nat) (dd td nd : Option Nat)
  | cancel (uid aid : Nat) (now : Int)

/-- Run one operation to completion; a thrown error leaves the store
unchanged (every write of the scheduler sits inside the transaction, after
all throw sites). -/
def applySchedOp (s : Sched) (op : SchedOp) : Sched :=
  match op with
  | .create r =>
    match createAppointment s r with
    | .ok s' => s'
    | .error _ => s
  | .reschedule uid aid dd td nd =>
    match updateAppointment s uid aid dd td nd with
    | .ok s' => s'
    | .error _ => s
  | .cancel uid aid now =>
    match cancelAppointment s uid aid now with
    | .ok s' => s'
    | .error _ => s

/-- An initial store: no appointments, every generated availability row
still free. -/
def SchedInit (s : Sched) : Prop :=
  s.appointments = [] ∧ ∀ r ∈ s.slots, r.isBooked = false

/-- States reachable by running whole scheduler operations one after
another (no interleaving). -/
inductive SchedReachable : Sched → Prop
  | init (s : Sched) : SchedInit s → SchedReachable s
  | step (s : Sched) (op : SchedOp) : SchedReachable s → SchedReachable (applySchedOp s op)

/-- There is a SCHEDULED appointment occupying key `k` in the list. -/
def scheduledInAt (l : List Appt) (k : Key) : Prop :=
  ∃ a ∈ l, a.status = .scheduled ∧ a.key = k

/-- There is a SCHEDULED appointment occupying key `k`. -/
def ScheduledAt (s : Sched) (k : Key) : Prop :=
  scheduledInAt s.appointments k

/-- The invariant maintained by sequential execution: appointment ids are
fresh and unique, at most one SCHEDULED appointment occupies any key, and a
SCHEDULED appointment occupies a key exactly when the availability row for
that key is booked. -/
structure SchedInv (s : Sched) : Prop where
  idBound : ∀ a ∈ s.appointments, a.id < s.nextId
  idInj : ∀ a ∈ s.appointments, ∀ b ∈ s.appointments, a.id = b.id → a = b
  schedUniq : ∀ a ∈ s.appointments, ∀ b ∈ s.appointments,
    a.status = .scheduled → b.status = .scheduled → a.key = b.key → a = b
  corr : ∀ k, ScheduledAt s k ↔ slotBooked s k = true

/-! ## Interleaved execution of `createAppointment`

The source runs its availability checks *outside* the transaction, so under
the pool-of-handlers model two create requests can both pass their checks
before either transaction commits.  A create attempt is split into its two
atomic pieces: the read/validate phase and the transaction.  Whole
`cancelAppointment` / `updateAppointment` runs are also allowed as steps
(a coarser schedule is one of the possible schedules). -/

inductive TaskPhase
  | ready
  | checked
  | succeeded
  | failed (e : SchedErr)
deriving DecidableEq, Repr

structure CreateTask where
  req : CreateReq
  phase : TaskPhase
deriving DecidableEq, Repr

structure Sys where
  db : Sched
  tasks : List CreateTask
deriving DecidableEq, Repr

inductive SysStep : Sys → Sys → Prop
  | checkOk (sys : Sys) (i : Nat) (t : CreateTask) :
      sys.tasks.get? i = some t → t.phase = .ready →
      createPrecheck sys.db t.req = none →
      SysStep sys ⟨sys.db, sys.tasks.set i { t with phase := .checked }⟩
  | checkFail (sys : Sys) (i : Nat) (t : CreateTask) (e : SchedErr) :
      sys.tasks.get? i = some t → t.phase = .ready →
      createPrecheck sys.db t.req = some e →
      SysStep sys ⟨sys.db, sys.tasks.set i { t with phase := .failed e }⟩
  | commit (sys : Sys) (i : Nat) (t : CreateTask) :
      sys.tasks.get? i = some t → t.phase = .checked →
      SysStep sys ⟨createCommit sys.db t.req, sys.tasks.set i { t with phase := .succeeded }⟩
  | cancelRun (sys : Sys) (uid aid : Nat) (now : Int) (s' : Sched) :
      cancelAppointment sys.db uid aid now = .ok s' →
      SysStep sys ⟨s', sys.tasks⟩
  | rescheduleRun (sys : Sys) (uid aid : Nat) (dd td nd : Option Nat) (s' : Sched) :
      updateAppointment sys.db uid aid dd td nd = .ok s' →
      SysStep sys ⟨s', sys.tasks⟩

inductive SysReach : Sys → Sys → Prop
  | refl (sys : Sys) : SysReach sys sys
  | tail (a b c : Sys) : SysReach a b → SysStep b c → SysReach a c

/-! ## Concrete race scenario (claims C1 and C2) -/

def raceKey : Key := ⟨1, 100, 540⟩

def raceDb0 : Sched :=
  { doctors := [⟨1, 1, 1, true⟩], dependents := [], appointments := [],
    slots := [⟨raceKey, false⟩], nextId := 1 }

def raceReq (uid : Nat) : CreateReq :=
  ⟨uid, 1, 1, 1, 100, 540, none, none⟩

def raceSys0 : Sys :=
  ⟨raceDb0, [⟨raceReq 10, .ready⟩, ⟨raceReq 20, .ready⟩]⟩

def raceDbF : Sched :=
  createCommit (createCommit raceDb0 (raceReq 10)) (raceReq 20)

def raceSysF : Sys :=
  ⟨raceDbF, [⟨raceReq 10, .succeeded⟩, ⟨raceReq 20, .succeeded⟩]⟩

/-- The store after additionally cancelling the second of the two raced
appointments (id 2, owner 20) well before the 24-hour window. -/
def raceDbG : Sched :=
  match cancelAppointment raceDbF 20 2 0 with
  | .ok s' => s'
  | .error _ => raceDbF

def raceSysG : Sys :=
  ⟨raceDbG, raceSysF.tasks⟩

/-! ## Authentication, stack S: the `authSession` controller
(`src/controllers/authController.ts`).  One table holds login sessions,
password-reset sessions, and — once verified — the refresh-token record.
There is no purpose tag.  All writes of each handler happen after its
throw sites, so these operations are `Except`-valued. -/

structure SUser where
  id : Nat
  cpf : Nat
  password : Nat
  phone : Nat
  isActive : Bool
deriving DecidableEq, Repr

structure Session where
  id : Nat
  userId : Nat
  sessionId : Nat
  twoFactorCode : Nat
  phoneNumber : Nat
  expiresAt : Int
  isVerified : Bool
  refreshToken : Option Nat
deriving DecidableEq, Repr

structure AuthDb where
  users : List SUser
  sessions : List Session
  nextId : Nat
deriving DecidableEq, Repr

/-- Errors of the `authSession` controller, one constructor per distinct
user-facing error of the handlers modelled here. -/
inductive SErr
  | sessionInvalidOrExpired
  | wrongCode
  | refreshInvalidOrExpired
deriving DecidableEq, Repr

/-- The session lookup of `verify2FA` / `resetPassword`: by opaque session
id, not yet verified, not yet expired. -/
def findLiveSession (s : AuthDb) (sid : Nat) (now : Int) : Option Session :=
  s.sessions.find? (fun t =>
    decide (t.sessionId = sid) && !t.isVerified && decide (now ≤ t.expiresAt))

/-- `verify2FA`: find the unverified unexpired session, compare the code,
then issue an access token and a refresh token and store the refresh token
on the session, marking it verified with a 7-day expiry.  The fresh tokens
are parameters (`newAccess`, `newRefresh`). -/
def verify2FAS (s : AuthDb) (sid code : Nat) (now : Int) (newAccess newRefresh : Nat) :
    Except SErr (AuthDb × Nat × Nat) :=
  match findLiveSession s sid now with
  | none => .error .sessionInvalidOrExpired
  | some sess =>
    if sess.twoFactorCode ≠ code then
      .error .wrongCode
    else
      .ok ({ s with sessions := s.sessions.map (fun t =>
        if t.id = sess.id then
          { t with refreshToken := some newRefresh, isVerified := true,
                   expiresAt := now + 604800000 }
        else t) }, newAccess, newRefresh)

/-- The `refresh` handler of the `authSession` controller: after the JWT
check (abstracted, see the file header) it looks the token up among
verified unexpired sessions and returns a fresh access token.  It performs
no write at all: the stored refresh token is neither rotated nor deleted,
which is why the unchanged store is returned. -/
def refreshTokenS (s : AuthDb) (tok : Nat) (now : Int) (newAccess : Nat) :
    Except SErr (AuthDb × Nat) :=
  match s.sessions.find? (fun t =>
      decide (t.refreshToken = some tok) && t.isVerified && decide (now ≤ t.expiresAt)) with
  | none => .error .refreshInvalidOrExpired
  | some _ => .ok (s, newAccess)

/-- The response of `forgotPassword`: the human message is the same
constant in both branches, but `sessionId` is present only when the CPF
belongs to a registered active user. -/
structure FPResponse where
  message : Nat
  sessionId : Option Nat
deriving DecidableEq, Repr

def fpMessage : Nat := 0

/-- `forgotPassword`: for an unknown or inactive CPF, answer 200 with the
message alone; for a registered active user, create a reset session (same
shape and table as a login session, 15-minute expiry, no purpose tag) and
answer with the same message plus the new `sessionId`. -/
def forgotPasswordS (s : AuthDb) (cpf : Nat) (now : Int) (newSid newCode : Nat) :
    AuthDb × FPResponse :=
  match s.users.find? (fun u => decide (u.cpf = cpf) && u.isActive) with
  | none => (s, ⟨fpMessage, none⟩)
  | some u =>
    ({ s with
       sessions := s.sessions ++
         [⟨s.nextId, u.id, newSid, newCode, u.phone, now + 900000, false, none⟩],
       nextId := s.nextId + 1 },
     ⟨fpMessage, some newSid⟩)

/-- `resetPassword`: find the unverified unexpired session by id, compare
the code, set the new password, mark the reset session verified (used), and
delete every other session of that user. -/
def resetPasswordS (s : AuthDb) (sid code newPw : Nat) (now : Int) :
    Except SErr AuthDb :=
  match findLiveSession s sid now with
  | none => .error .sessionInvalidOrExpired
  | some sess =>
    if sess.twoFactorCode ≠ code then
      .error .wrongCode
    else
      .ok { s with
        users := s.users.map (fun u =>
          if u.id = sess.userId then { u with password := newPw } else u),
        sessions := (s.sessions.map (fun t =>
            if t.id = sess.id then { t with isVerified := true } else t)).filter
          (fun t => decide (t.id = sess.id) || !decide (t.userId = sess.userId)) }

/-! ## Authentication, stack O: the `oTPCode`/`refreshToken` service
(`src/services/authService.ts`).  OTP codes carry a `type` tag
(`login` / `password_reset`); refresh tokens live in their own table and
are rotated on use.  `verifyTwoFactor` and `refreshToken` write before
later throw sites, so every operation returns the new store next to the
`Except` result. -/

inductive OtpType
  | login
  | passwordReset
deriving DecidableEq, Repr

structure OtpRow where
  id : Nat
  cpf : Nat
  code : Nat
  otype : OtpType
  verified : Bool
  expiresAt : Int
deriving DecidableEq, Repr

structure RtRow where
  id : Nat
  token : Nat
  userId : Nat
  expiresAt : Int
deriving DecidableEq, Repr

structure OUser where
  id : Nat
  cpf : Nat
  password : Nat
  isActive : Bool
  lastLoginAt : Int
deriving DecidableEq, Repr

/-- The service's store.  `otps` is kept newest-first, so `List.find?`
realises `findFirst` with `orderBy: createdAt desc`. -/
structure ODb where
  users : List OUser
  otps : List OtpRow
  rtokens : List RtRow
  nextId : Nat
deriving DecidableEq, Repr

inductive OErr
  | invalidOrExpiredCode
  | userNotFound
  | tokenNotFound
  | tokenExpired
deriving DecidableEq, Repr

/-- The `findFirst` of `verifyTwoFactor` / `resetPassword`: by CPF, code,
purpose tag, unverified, strictly unexpired, newest first. -/
def findOtp (s : ODb) (cpf code : Nat) (ty : OtpType) (now : Int) : Option OtpRow :=
  s.otps.find? (fun o =>
    decide (o.cpf = cpf) && decide (o.code = code) && decide (o.otype = ty) &&
    !o.verified && decide (now < o.expiresAt))

def markOtpVerified (s : ODb) (oid : Nat) : ODb :=
  { s with otps := s.otps.map (fun o =>
      if o.id = oid then { o with verified := true } else o) }

/-- `AuthService.verifyTwoFactor`: find a live `login`-typed code for the
CPF, mark it verified, look the user up, stamp `lastLoginAt`, mint an
access and a refresh token and store the refresh token with a 7-day
expiry. -/
def verifyTwoFactorO (s : ODb) (cpf code : Nat) (now : Int) (newAccess newRefresh : Nat) :
    ODb × Except OErr (Nat × Nat) :=
  match findOtp s cpf code .login now with
  | none => (s, .error .invalidOrExpiredCode)
  | some otp =>
    let s1 := markOtpVerified s otp.id
    match s1.users.find? (fun u => decide (u.cpf = cpf)) with
    | none => (s1, .error .userNotFound)
    | some u =>
      let s2 := { s1 with users := s1.users.map (fun v : OUser =>
        if v.id = u.id then { v with lastLoginAt := now } else v) }
      let s3 := { s2 with
        rtokens := ⟨s2.nextId, newRefresh, u.id, now + 604800000⟩ :: s2.rtokens,
        nextId := s2.nextId + 1 }
      (s3, .ok (newAccess, newRefresh))

/-- `AuthService.refreshToken`: after the JWT check (abstracted) look the
presented token up; delete it if expired; otherwise delete it, store a
fresh refresh token, and return the new pair (rotation-on-use). -/
def refreshO (s : ODb) (tok : Nat) (now : Int) (newAccess newRefresh : Nat) :
    ODb × Except OErr (Nat × Nat) :=
  match s.rtokens.find? (fun r => decide (r.token = tok)) with
  | none => (s, .error .tokenNotFound)
  | some row =>
    if row.expiresAt < now then
      ({ s with rtokens := s.rtokens.filter (fun r => !decide (r.id = row.id)) },
       .error .tokenExpired)
    else
      let s1 := { s with rtokens := s.rtokens.filter (fun r => !decide (r.id = row.id)) }
      ({ s1 with
         rtokens := ⟨s1.nextId, newRefresh, row.userId, now + 604800000⟩ :: s1.rtokens,
         nextId := s1.nextId + 1 },
       .ok (newAccess, newRefresh))

/-- `AuthService.forgotPassword`: silently do nothing for an unknown CPF,
else store a `password_reset`-typed code with a 10-minute expiry. -/
def forgotPasswordO (s : ODb) (cpf : Nat) (now : Int) (newCode : Nat) : ODb :=
  match s.users.find? (fun u => decide (u.cpf = cpf)) with
  | none => s
  | some _ =>
    { s with
      otps := ⟨s.nextId, cpf, newCode, .passwordReset, false, now + 600000⟩ :: s.otps,
      nextId := s.nextId + 1 }

/-- `AuthService.resetPassword`: find a live `password_reset`-typed code,
mark it verified, and set the new password.  The `refreshToken` table is
not touched. -/
def resetPasswordO (s : ODb) (cpf code newPw : Nat) (now : Int) :
    ODb × Except OErr Unit :=
  match findOtp s cpf code .passwordReset now with
  | none => (s, .error .invalidOrExpiredCode)
  | some otp =>
    let s1 := markOtpVerified s otp.id
    let s2 := { s1 with users := s1.users.map (fun u =>
      if u.cpf = cpf then { u with password := newPw } else u) }
    (s2, .ok ())

/-! ## Concrete scenarios -/

/-- A store with one SCHEDULED appointment (id 1, user 5) occupying
`raceKey`, whose availability row is booked, plus a free row at a second
key and no row at a third. -/
def demoAppt : Appt :=
  ⟨1, 5, none, 1, 1, raceKey, none, .scheduled⟩

def demoFreeKey : Key := ⟨1, 101, 540⟩

def demoNoRowKey : Key := ⟨1, 102, 540⟩

def demoSched : Sched :=
  { doctors := [⟨1, 1, 1, true⟩], dependents := [],
    appointments := [demoAppt],
    slots := [⟨raceKey, true⟩, ⟨demoFreeKey, false⟩], nextId := 2 }

/-- A sequentially reached store: one create against the empty grid. -/
def demoSeq1 : Sched :=
  applySchedOp raceDb0 (SchedOp.create (raceReq 10))

def c4sess : Session := ⟨1, 1, 5, 42, 9, 1000000000, true, some 7⟩

def c4db : AuthDb := ⟨[], [c4sess], 2⟩

def w4db : ODb := ⟨[], [], [⟨1, 7, 1, 1000⟩], 2⟩

def c5db0 : AuthDb := ⟨[⟨1, 111, 0, 9, true⟩], [], 1⟩

/-- The store after the forgot-password flow created a reset session with
session id 77 and code 42 at time 0. -/
def c5db1 : AuthDb := (forgotPasswordS c5db0 111 0 77 42).1

def w5db : ODb := ⟨[], [⟨1, 111, 42, .passwordReset, false, 1000000⟩], [], 2⟩

def w6dbS : AuthDb := ⟨[], [⟨1, 1, 5, 42, 9, 1000000, false, none⟩], 2⟩

def w6dbO : ODb := ⟨[⟨1, 111, 0, true, 0⟩], [⟨2, 111, 42, .login, false, 1000000⟩], [], 3⟩

def c7db : AuthDb := ⟨[], [⟨1, 1, 5, 42, 9, 100, false, none⟩, ⟨2, 1, 6, 42, 9, 1000000, false, none⟩], 3⟩

def w7dbExpired : ODb := ⟨[], [⟨1, 111, 42, .login, false, 100⟩], [], 2⟩

def c8db : ODb :=
  ⟨[⟨1, 111, 0, true, 0⟩], [⟨2, 111, 42, .passwordReset, false, 1000000⟩],
   [⟨1, 7, 1, 1000000000⟩], 3⟩

/-- The service store after a successful password reset for CPF 111. -/
def c8db1 : ODb := (resetPasswordO c8db 111 42 99 0).1

def w8db : AuthDb :=
  ⟨[⟨1, 111, 0, 9, true⟩],
   [⟨1, 1, 5, 42, 9, 1000000000, true, some 7⟩, ⟨2, 1, 6, 43, 9, 1000, false, none⟩], 3⟩

def w10db : AuthDb := ⟨[⟨1, 111, 0, 9, true⟩], [], 2⟩

/-- The store after the reset session of `c5db1` was accepted by the login
verification handler. -/
def c5db2 : AuthDb :=
  match verify2FAS c5db1 77 42 1000 200 201 with
  | .ok (s', _, _) => s'
  | .error _ => c5db1

/-- The store returned by the no-op reschedule of the C3 counterexample. -/
def c3succState : Sched :=
  match updateAppointment demoSched 5 1 (some 100) (some 540) none with
  | .ok s' => s'
  | .error _ => demoSched

/-! # Theorems -/

/-! ## Helper lemmas about the availability-row primitives -/

theorem findRow_eq_some_facts {rows : List SlotRow} {k : Key} {r : SlotRow}
    (h : findRow rows k = some r) : r ∈ rows ∧ r.key = k :=
  ⟨List.mem_of_find?_eq_some h, by simpa using List.find?_some h⟩

theorem ifSet_key (r : SlotRow) (k : Key) (b : Bool) :
    (if r.key = k then { r with isBooked := b } else r).key = r.key := by
  by_cases h : r.key = k <;> simp [h]

theorem findRow_setSlotBooked (rows : List SlotRow) (k k' : Key) (b : Bool) :
    findRow (setSlotBooked rows k b) k' =
      (findRow rows k').map (fun r => if r.key = k then { r with isBooked := b } else r) := by
  induction rows with
  | nil => rfl
  | cons r rs ih =>
    by_cases hk' : r.key = k'
    · rw [setSlotBooked, List.map_cons, findRow, findRow,
        List.find?_cons_of_pos _ (by rw [ifSet_key]; simp [hk']),
        List.find?_cons_of_pos _ (by simp [hk'])]
      rfl
    · rw [setSlotBooked, List.map_cons, findRow, findRow,
        List.find?_cons_of_neg _ (by rw [ifSet_key]; simp [hk']),
        List.find?_cons_of_neg _ (by simp [hk'])]
      exact ih

theorem rowsBooked_set_other {k k' : Key} (rows : List SlotRow) (b : Bool)
    (h : k' ≠ k) :
    rowsBooked (setSlotBooked rows k b) k' = rowsBooked rows k' := by
  rw [rowsBooked, findRow_setSlotBooked]
  cases hfr : findRow rows k' with
  | none => simp [rowsBooked, hfr]
  | some r =>
    have hk := (findRow_eq_some_facts hfr).2
    have hne : ¬ r.key = k := by rw [hk]; exact h
    simp [rowsBooked, hfr, hne]

theorem rowsBooked_set_self_false (rows : List SlotRow) (k : Key) :
    rowsBooked (setSlotBooked rows k false) k = false := by
  rw [rowsBooked, findRow_setSlotBooked]
  cases hfr : findRow rows k with
  | none => rfl
  | some r =>
    have hk := (findRow_eq_some_facts hfr).2
    simp [hk]

theorem rowsBooked_set_self_true (rows : List SlotRow) (k : Key)
    (h : (findRow rows k).isSome = true) :
    rowsBooked (setSlotBooked rows k true) k = true := by
  rw [rowsBooked, findRow_setSlotBooked]
  cases hfr : findRow rows k with
  | none => rw [hfr] at h; exact absurd h (by simp)
  | some r =>
    have hk := (findRow_eq_some_facts hfr).2
    simp [hk]

theorem findRow_set_isSome (rows : List SlotRow) (k k' : Key) (b : Bool) :
    (findRow (setSlotBooked rows k b) k').isSome = (findRow rows k').isSome := by
  rw [findRow_setSlotBooked]
  cases findRow rows k' <;> simp

theorem findScheduled_eq_some_facts {s : Sched} {uid aid : Nat} {appt : Appt}
    (h : findScheduled s uid aid = some appt) :
    appt ∈ s.appointments ∧ appt.id = aid ∧ appt.userId = uid ∧
      appt.status = .scheduled := by
  refine ⟨List.mem_of_find?_eq_some h, ?_⟩
  have hp := List.find?_some h
  simp only [Bool.and_eq_true, decide_eq_true_eq] at hp
  exact ⟨hp.1.1, hp.1.2, hp.2⟩

/-- The double-booking race: both create attempts pass their availability
checks against the initial store, then both transactions commit. -/
theorem race_reach_final : SysReach raceSys0 raceSysF := by
  have h1 : SysStep raceSys0
      ⟨raceDb0, [⟨raceReq 10, .checked⟩, ⟨raceReq 20, .ready⟩]⟩ :=
    SysStep.checkOk raceSys0 0 ⟨raceReq 10, .ready⟩ rfl rfl (by decide)
  have h2 : SysStep ⟨raceDb0, [⟨raceReq 10, .checked⟩, ⟨raceReq 20, .ready⟩]⟩
      ⟨raceDb0, [⟨raceReq 10, .checked⟩, ⟨raceReq 20, .checked⟩]⟩ :=
    SysStep.checkOk _ 1 ⟨raceReq 20, .ready⟩ rfl rfl (by decide)
  have h3 : SysStep ⟨raceDb0, [⟨raceReq 10, .checked⟩, ⟨raceReq 20, .checked⟩]⟩
      ⟨createCommit raceDb0 (raceReq 10), [⟨raceReq 10, .succeeded⟩, ⟨raceReq 20, .checked⟩]⟩ :=
    SysStep.commit _ 0 ⟨raceReq 10, .checked⟩ rfl rfl
  have h4 : SysStep
      ⟨createCommit raceDb0 (raceReq 10), [⟨raceReq 10, .succeeded⟩, ⟨raceReq 20, .checked⟩]⟩
      raceSysF :=
    SysStep.commit _ 1 ⟨raceReq 20, .checked⟩ rfl rfl
  exact SysReach.tail _ _ _
    (SysReach.tail _ _ _ (SysReach.tail _ _ _ (SysReach.tail _ _ _ (SysReach.refl _) h1) h2) h3) h4

/-- C1: the at-most-one-SCHEDULED-per-slot invariant fails under
interleaving: from an initial store with one free slot, two concurrent
create attempts for the same (doctor, date, time) can both pass the
availability checks (which the source runs outside its transaction) and
then both commit, so both succeed — neither receives `SlotUnavailable` —
and the reachable final store holds two SCHEDULED appointments for the
same key. -/
theorem c1_code_bug_double_booking :
    SysReach raceSys0 raceSysF ∧
    raceSysF.tasks.all (fun t => decide (t.phase = .succeeded)) = true ∧
    (raceDbF.appointments.filter (fun a =>
      decide (a.key = raceKey) && decide (a.status = ApptStatus.scheduled))).length = 2 :=
  ⟨race_reach_final, by decide, by decide⟩

/-- C2 counterexample: extending the double-booking race with a cancel of
the second raced appointment reaches a store in which an appointment is
still SCHEDULED for `raceKey` while the availability row for `raceKey` is
not booked — the SCHEDULED-iff-booked correspondence is broken in a
reachable state. -/
theorem c2_counterexample_correspondence_breaks :
    SysReach raceSys0 raceSysG ∧
    raceDbG.appointments.any (fun a =>
      decide (a.status = ApptStatus.scheduled) && decide (a.key = raceKey)) = true ∧
    slotBooked raceDbG raceKey = false := by
  refine ⟨?_, by decide, by decide⟩
  have h5 : SysStep raceSysF raceSysG :=
    SysStep.cancelRun raceSysF 20 2 0 raceDbG rfl
  exact SysReach.tail _ _ _ race_reach_final h5

/-- C4 counterexample: in the `authSession` controller, a refresh call
presenting stored refresh token 7 succeeds but performs no rotation — the
store is returned unchanged (token 7's record is not deleted, no new
refresh token is stored), only a fresh access token is issued — and a
second call presenting the same token 7 succeeds again instead of failing. -/
theorem c4_counterexample_no_rotation :
    refreshTokenS c4db 7 0 100 = .ok (c4db, 100) ∧
    refreshTokenS c4db 7 1 101 = .ok (c4db, 101) :=
  ⟨rfl, rfl⟩

/-- C5 counterexample: in the `authSession` controller, the forgot-password
flow creates session 77 with code 42, and the login verification handler
`verify2FA` accepts exactly that session and code, issuing an access token
and a refresh token instead of failing. -/
theorem c5_counterexample_reset_code_replayed_as_login :
    (forgotPasswordS c5db0 111 0 77 42).2.sessionId = some 77 ∧
    verify2FAS c5db1 77 42 1000 200 201 = .ok (c5db2, 200, 201) :=
  ⟨rfl, rfl⟩

/-- C7 counterexample: in the `authSession` controller, verifying the
correct code 42 after the session's expiry fails with the session error,
while a wrong code against a live session fails with a distinct code
error, so the two are distinguishable (a nonexistent session gives the
session error again). -/
theorem c7_counterexample_errors_distinguish :
    verify2FAS c7db 5 42 500 200 201 = .error .sessionInvalidOrExpired ∧
    verify2FAS c7db 6 1 500 200 201 = .error .wrongCode ∧
    verify2FAS c7db 99 42 500 200 201 = .error .sessionInvalidOrExpired ∧
    SErr.wrongCode ≠ SErr.sessionInvalidOrExpired :=
  ⟨rfl, rfl, rfl, by decide⟩

/-- C8 counterexample: in the `oTPCode`/`refreshToken` service, a password
reset for CPF 111 succeeds, yet refresh token 7, issued to that same user
before the reset, still rotates successfully afterwards — the service's
`resetPassword` never touches the refresh-token table. -/
theorem c8_counterexample_tokens_survive_reset :
    (resetPasswordO c8db 111 42 99 0).2 = .ok () ∧
    (refreshO c8db1 7 1 200 201).2 = .ok (200, 201) :=
  ⟨rfl, rfl⟩

/-- C10: the forgot-password response distinguishes account existence: for
a CPF of a registered active user the response carries `sessionId`, for any
other CPF it carries none, while the human message is the same constant in
both runs. -/
theorem c10_forgot_password_distinguishes_registration (s : AuthDb) (cpf : Nat)
    (now : Int) (sid code : Nat) :
    ((∃ u ∈ s.users, u.cpf = cpf ∧ u.isActive = true) →
      (forgotPasswordS s cpf now sid code).2.sessionId = some sid) ∧
    ((∀ u ∈ s.users, u.cpf = cpf → u.isActive = false) →
      (forgotPasswordS s cpf now sid code).2.sessionId = none) ∧
    (forgotPasswordS s cpf now sid code).2.message = fpMessage := by
  refine ⟨?_, ?_, ?_⟩
  · rintro ⟨u, hu, hc, ha⟩
    cases hfind : s.users.find? (fun v => decide (v.cpf = cpf) && v.isActive) with
    | none =>
      rw [List.find?_eq_none] at hfind
      exact absurd (by simp [hc, ha]) (hfind u hu)
    | some v =>
      simp [forgotPasswordS, hfind]
  · intro h
    have hfind : s.users.find? (fun v => decide (v.cpf = cpf) && v.isActive) = none := by
      rw [List.find?_eq_none]
      intro v hv
      simp only [Bool.and_eq_true, decide_eq_true_eq, not_and]
      intro hc
      simp [h v hv hc]
    simp [forgotPasswordS, hfind]
  · cases hfind : s.users.find? (fun v => decide (v.cpf = cpf) && v.isActive) with
    | none => simp [forgotPasswordS, hfind]
    | some v => simp [forgotPasswordS, hfind]

/-- C10 witness: CPF 111 is registered and active in `w10db`, CPF 222 is
not; the first response carries the session id, the second does not, and
both carry the same message. -/
theorem c10_witness :
    (∃ u ∈ w10db.users, u.cpf = 111 ∧ u.isActive = true) ∧
    (forgotPasswordS w10db 111 0 77 42).2.sessionId = some 77 ∧
    (∀ u ∈ w10db.users, u.cpf = 222 → u.isActive = false) ∧
    (forgotPasswordS w10db 222 0 78 43).2.sessionId = none ∧
    (forgotPasswordS w10db 111 0 77 42).2.message =
      (forgotPasswordS w10db 222 0 78 43).2.message := by
  refine ⟨by decide, ?_, by decide, ?_, ?_⟩
  · exact (c10_forgot_password_distinguishes_registration w10db 111 0 77 42).1 (by decide)
  · exact (c10_forgot_password_distinguishes_registration w10db 222 0 78 43).2.1 (by decide)
  · rfl

/-- C7 amended: in the `oTPCode` service, every failing verification —
whether the stored code is expired, the supplied code matches no row, or no
row exists at all — returns the one error `invalidOrExpiredCode`; the
hypothesis says exactly that no live matching row exists, which covers all
three causes. -/
theorem c7_amended_service_uniform_error (s : ODb) (cpf code : Nat) (now : Int)
    (na nr : Nat)
    (h : ∀ o ∈ s.otps, o.cpf = cpf → o.code = code → o.otype = OtpType.login →
      o.verified = false → ¬ now < o.expiresAt) :
    (verifyTwoFactorO s cpf code now na nr).2 = .error .invalidOrExpiredCode := by
  have hfind : findOtp s cpf code .login now = none := by
    rw [findOtp, List.find?_eq_none]
    intro o ho
    simp only [Bool.and_eq_true, decide_eq_true_eq, Bool.not_eq_true']
    rintro ⟨⟨⟨⟨h1, h2⟩, h3⟩, h4⟩, h5⟩
    exact h o ho h1 h2 h3 h4 h5
  simp [verifyTwoFactorO, hfind]

/-- C7 amended witness: the expired-code run, the wrong-code run, and the
empty-store run all produce the identical error. -/
theorem c7_amended_witness :
    (verifyTwoFactorO w7dbExpired 111 42 500 200 201).2 = .error .invalidOrExpiredCode ∧
    (verifyTwoFactorO w7dbExpired 111 43 0 200 201).2 = .error .invalidOrExpiredCode ∧
    (verifyTwoFactorO (⟨[], [], [], 1⟩ : ODb) 111 42 0 200 201).2 = .error .invalidOrExpiredCode :=
  ⟨c7_amended_service_uniform_error w7dbExpired 111 42 500 200 201 (by decide),
   c7_amended_service_uniform_error w7dbExpired 111 43 0 200 201 (by decide),
   c7_amended_service_uniform_error ⟨[], [], [], 1⟩ 111 42 0 200 201 (by decide)⟩

/-- C5 amended: in the `oTPCode` service, the code stored by the
forgot-password flow carries the `password_reset` tag, and the login
verification `verifyTwoFactor` filters on the `login` tag, so the reset
code is rejected (provided no separate login code with the same CPF and
value is live, which the hypothesis states). -/
theorem c5_amended_service_rejects_reset_code (s : ODb) (cpf nc : Nat)
    (now now2 : Int) (na nr : Nat)
    (h : ∀ o ∈ s.otps, o.cpf = cpf → o.code = nc → o.otype = OtpType.passwordReset) :
    (verifyTwoFactorO (forgotPasswordO s cpf now nc) cpf nc now2 na nr).2 =
      .error .invalidOrExpiredCode := by
  have hrows : ∀ o ∈ (forgotPasswordO s cpf now nc).otps,
      o.cpf = cpf → o.code = nc → o.otype = OtpType.passwordReset := by
    intro o ho
    unfold forgotPasswordO at ho
    cases hfind : s.users.find? (fun u => decide (u.cpf = cpf)) with
    | none =>
      rw [hfind] at ho
      exact h o ho
    | some u =>
      rw [hfind] at ho
      simp only [List.mem_cons] at ho
      rcases ho with rfl | ho
      · intro _ _
        rfl
      · exact h o ho
  have hfind2 : findOtp (forgotPasswordO s cpf now nc) cpf nc .login now2 = none := by
    rw [findOtp, List.find?_eq_none]
    intro o ho
    simp only [Bool.and_eq_true, decide_eq_true_eq, Bool.not_eq_true']
    rintro ⟨⟨⟨⟨h1, h2⟩, h3⟩, _⟩, _⟩
    have hty := hrows o ho h1 h2
    rw [h3] at hty
    exact absurd hty (by decide)
  simp [verifyTwoFactorO, hfind2]

/-- C5 amended witness: the store holds a reset-tagged code 42 for CPF 111;
after another forgot-password run the login verification still rejects
code 42. -/
theorem c5_amended_witness :
    (∀ o ∈ w5db.otps, o.cpf = 111 → o.code = 42 → o.otype = OtpType.passwordReset) ∧
    (verifyTwoFactorO (forgotPasswordO w5db 111 0 42) 111 42 100 200 201).2 =
      .error .invalidOrExpiredCode :=
  ⟨by decide, c5_amended_service_rejects_reset_code w5db 111 42 0 100 200 201 (by decide)⟩

/-- C4 amended: the `oTPCode`/`refreshToken` service rotates on use — a
stored unexpired refresh token rotates into a fresh pair, its stored record
is deleted (no row for it remains), and any second presentation of the old
token fails with the token-not-found error.  The hypotheses: the presented
token is the stored one, it is unexpired, the token column is unique, and
the freshly minted token differs from the old one. -/
theorem c4_amended_service_rotation (s : ODb) (t1 na t2 : Nat) (now : Int)
    (row : RtRow)
    (hfind : s.rtokens.find? (fun r => decide (r.token = t1)) = some row)
    (hexp : ¬ row.expiresAt < now)
    (huniq : ∀ r ∈ s.rtokens, r.token = t1 → r.id = row.id)
    (hfresh : t2 ≠ t1) :
    (refreshO s t1 now na t2).2 = .ok (na, t2) ∧
    (refreshO s t1 now na t2).1.rtokens.find? (fun r => decide (r.token = t1)) = none ∧
    ∀ (now' : Int) (na' nr' : Nat),
      (refreshO (refreshO s t1 now na t2).1 t1 now' na' nr').2 = .error .tokenNotFound := by
  have hstate : refreshO s t1 now na t2 =
      ({ s with
         rtokens := ⟨s.nextId, t2, row.userId, now + 604800000⟩ ::
           s.rtokens.filter (fun r => !decide (r.id = row.id)),
         nextId := s.nextId + 1 }, .ok (na, t2)) := by
    simp [refreshO, hfind, hexp]
  have hnone : ((⟨s.nextId, t2, row.userId, now + 604800000⟩ ::
      s.rtokens.filter (fun r => !decide (r.id = row.id)) : List RtRow)).find?
        (fun r => decide (r.token = t1)) = none := by
    rw [List.find?_eq_none]
    intro r hr
    simp only [List.mem_cons, List.mem_filter, Bool.not_eq_true', decide_eq_false_iff_not] at hr
    rcases hr with rfl | ⟨hr, hid⟩
    · simp [hfresh]
    · simp only [decide_eq_true_eq]
      intro ht
      exact absurd (huniq r hr ht) hid
  refine ⟨by rw [hstate], by rw [hstate]; exact hnone, ?_⟩
  intro now' na' nr'
  rw [hstate]
  simp [refreshO, hnone]

/-- C4 amended witness: token 7 is stored unexpired in `w4db`; rotating it
succeeds with fresh token 8, leaves no record of token 7, and the second
presentation of token 7 fails. -/
theorem c4_amended_witness :
    w4db.rtokens.find? (fun r => decide (r.token = 7)) = some ⟨1, 7, 1, 1000⟩ ∧
    (refreshO w4db 7 0 200 8).2 = .ok (200, 8) ∧
    (refreshO (refreshO w4db 7 0 200 8).1 7 1 201 9).2 = .error .tokenNotFound := by
  refine ⟨rfl, ?_, ?_⟩
  · exact (c4_amended_service_rotation w4db 7 200 8 0 ⟨1, 7, 1, 1000⟩ rfl
      (by decide) (by decide) (by decide)).1
  · exact (c4_amended_service_rotation w4db 7 200 8 0 ⟨1, 7, 1, 1000⟩ rfl
      (by decide) (by decide) (by decide)).2.2 1 201 9

/-- C8 amended: in the `authSession` controller, a successful password
reset deletes every other session of the user, so every refresh token
issued to that user before the reset (held on a session other than the
reset session itself) fails to refresh afterwards. -/
theorem c8_amended_controller_revokes (s : AuthDb) (sid code pw T : Nat)
    (now now' : Int) (na : Nat) (rsess : Session)
    (hfind : findLiveSession s sid now = some rsess)
    (hcode : rsess.twoFactorCode = code)
    (hT : ∀ t ∈ s.sessions, t.refreshToken = some T →
      t.userId = rsess.userId ∧ t.id ≠ rsess.id) :
    ∃ s', resetPasswordS s sid code pw now = .ok s' ∧
      refreshTokenS s' T now' na = .error .refreshInvalidOrExpired := by
  refine ⟨{ s with
      users := s.users.map (fun u =>
        if u.id = rsess.userId then { u with password := pw } else u),
      sessions := (s.sessions.map (fun t =>
          if t.id = rsess.id then { t with isVerified := true } else t)).filter
        (fun t => decide (t.id = rsess.id) || !decide (t.userId = rsess.userId)) }, ?_, ?_⟩
  · simp [resetPasswordS, hfind, hcode]
  · have hnone : ((s.sessions.map (fun t =>
        if t.id = rsess.id then { t with isVerified := true } else t)).filter
          (fun t => decide (t.id = rsess.id) || !decide (t.userId = rsess.userId))).find?
        (fun t => decide (t.refreshToken = some T) && t.isVerified &&
          decide (now' ≤ t.expiresAt)) = none := by
      rw [List.find?_eq_none]
      intro t' ht'
      simp only [List.mem_filter, List.mem_map] at ht'
      rcases ht' with ⟨⟨t, ht, rfl⟩, hkeep⟩
      simp only [Bool.and_eq_true, decide_eq_true_eq]
      rintro ⟨⟨hrt, _⟩, _⟩
      by_cases hid : t.id = rsess.id
      · rw [if_pos hid] at hrt
        exact absurd hid (hT t ht hrt).2
      · rw [if_neg hid] at hrt hkeep
        rcases hT t ht hrt with ⟨huid, _⟩
        simp [hid, huid] at hkeep
    simp [refreshTokenS, hnone]

/-- C8 amended witness: in `w8db`, user 1 holds refresh token 7 on a
verified session and a live reset session 6 with code 43; resetting the
password revokes the token. -/
theorem c8_amended_witness :
    findLiveSession w8db 6 0 = some ⟨2, 1, 6, 43, 9, 1000, false, none⟩ ∧
    ∃ s', resetPasswordS w8db 6 43 99 0 = .ok s' ∧
      refreshTokenS s' 7 1 100 = .error .refreshInvalidOrExpired :=
  ⟨rfl, c8_amended_controller_revokes w8db 6 43 99 7 0 1 100
    ⟨2, 1, 6, 43, 9, 1000, false, none⟩ rfl rfl (by decide)⟩

/-- C6: in both stacks, verifying an unverified unexpired session with the
exactly matching code succeeds once, marks the session (the OTP row)
verified, and every subsequent attempt against that same session fails,
even with the same correct code.  The uniqueness hypotheses say the opaque
session id (resp. the (cpf, code, login) triple) picks out that session. -/
theorem c6_verification_succeeds_exactly_once :
    (∀ (s : AuthDb) (sid code : Nat) (now : Int) (na nr : Nat) (sess : Session),
      findLiveSession s sid now = some sess →
      sess.twoFactorCode = code →
      (∀ t ∈ s.sessions, t.sessionId = sid → t = sess) →
      ∃ s', verify2FAS s sid code now na nr = .ok (s', na, nr) ∧
        (∀ t ∈ s'.sessions, t.sessionId = sid → t.isVerified = true) ∧
        ∀ (c2 : Nat) (n2 : Int) (na2 nr2 : Nat),
          verify2FAS s' sid c2 n2 na2 nr2 = .error .sessionInvalidOrExpired) ∧
    (∀ (s : ODb) (cpf code : Nat) (now : Int) (na nr : Nat) (o : OtpRow) (u : OUser),
      findOtp s cpf code .login now = some o →
      (∀ o2 ∈ s.otps, o2.cpf = cpf → o2.code = code → o2.otype = OtpType.login → o2 = o) →
      s.users.find? (fun v => decide (v.cpf = cpf)) = some u →
      (verifyTwoFactorO s cpf code now na nr).2 = .ok (na, nr) ∧
      ∀ (n2 : Int) (na2 nr2 : Nat),
        (verifyTwoFactorO (verifyTwoFactorO s cpf code now na nr).1 cpf code n2 na2 nr2).2 =
          .error .invalidOrExpiredCode) := by
  constructor
  · intro s sid code now na nr sess hfind hcode huniq
    refine ⟨{ s with sessions := s.sessions.map (fun t =>
        if t.id = sess.id then
          { t with refreshToken := some nr, isVerified := true, expiresAt := now + 604800000 }
        else t) }, ?_, ?_, ?_⟩
    · simp [verify2FAS, hfind, hcode]
    · intro t' ht' hsid
      simp only [List.mem_map] at ht'
      rcases ht' with ⟨t, ht, rfl⟩
      by_cases hid : t.id = sess.id
      · rw [if_pos hid]
      · rw [if_neg hid] at hsid ⊢
        exact absurd (congrArg Session.id (huniq t ht hsid)) hid
    · intro c2 n2 na2 nr2
      have hnone : findLiveSession { s with sessions := s.sessions.map (fun t =>
          if t.id = sess.id then
            { t with refreshToken := some nr, isVerified := true, expiresAt := now + 604800000 }
          else t) } sid n2 = none := by
        rw [findLiveSession, List.find?_eq_none]
        intro t' ht'
        simp only [List.mem_map] at ht'
        rcases ht' with ⟨t, ht, rfl⟩
        simp only [Bool.and_eq_true, decide_eq_true_eq, Bool.not_eq_true']
        rintro ⟨⟨hsid, hver⟩, _⟩
        by_cases hid : t.id = sess.id
        · rw [if_pos hid] at hver
          simp at hver
        · rw [if_neg hid] at hsid
          exact absurd (congrArg Session.id (huniq t ht hsid)) hid
      simp [verify2FAS, hnone]
  · intro s cpf code now na nr o u hfind huniq huser
    have hrun : verifyTwoFactorO s cpf code now na nr =
        ({ users := s.users.map (fun v =>
             if v.id = u.id then { v with lastLoginAt := now } else v),
           otps := s.otps.map (fun o2 =>
             if o2.id = o.id then { o2 with verified := true } else o2),
           rtokens := ⟨s.nextId, nr, u.id, now + 604800000⟩ :: s.rtokens,
           nextId := s.nextId + 1 }, .ok (na, nr)) := by
      simp [verifyTwoFactorO, markOtpVerified, hfind, huser]
    have hnone : ∀ (n2 : Int),
        findOtp (verifyTwoFactorO s cpf code now na nr).1 cpf code .login n2 = none := by
      intro n2
      rw [hrun]
      dsimp only
      rw [findOtp, List.find?_eq_none]
      intro o2' ho2'
      simp only [List.mem_map] at ho2'
      rcases ho2' with ⟨o2, ho2, rfl⟩
      simp only [Bool.and_eq_true, decide_eq_true_eq, Bool.not_eq_true']
      rintro ⟨⟨⟨⟨hc, hcd⟩, hty⟩, hver⟩, _⟩
      by_cases hid : o2.id = o.id
      · rw [if_pos hid] at hver
        simp at hver
      · rw [if_neg hid] at hc hcd hty
        exact absurd (congrArg OtpRow.id (huniq o2 ho2 hc hcd hty)) hid
    refine ⟨by rw [hrun], ?_⟩
    intro n2 na2 nr2
    rw [verifyTwoFactorO, hnone n2]

/-- C6 witness: the live session in `w6dbS` (id 5, code 42) verifies once
and then rejects even the correct code; likewise the login OTP row in
`w6dbO` for CPF 111. -/
theorem c6_witness :
    findLiveSession w6dbS 5 0 = some ⟨1, 1, 5, 42, 9, 1000000, false, none⟩ ∧
    (∃ s', verify2FAS w6dbS 5 42 0 200 201 = .ok (s', 200, 201) ∧
      ∀ (c2 : Nat) (n2 : Int) (na2 nr2 : Nat),
        verify2FAS s' 5 c2 n2 na2 nr2 = .error .sessionInvalidOrExpired) ∧
    (verifyTwoFactorO w6dbO 111 42 0 200 201).2 = .ok (200, 201) ∧
    (verifyTwoFactorO (verifyTwoFactorO w6dbO 111 42 0 200 201).1 111 42 5 202 203).2 =
      .error .invalidOrExpiredCode := by
  obtain ⟨s', h1, _, h3⟩ :=
    c6_verification_succeeds_exactly_once.1 w6dbS 5 42 0 200 201
      ⟨1, 1, 5, 42, 9, 1000000, false, none⟩ rfl rfl (by decide)
  obtain ⟨h4, h5⟩ :=
    c6_verification_succeeds_exactly_once.2 w6dbO 111 42 0 200 201
      ⟨2, 111, 42, .login, false, 1000000⟩ ⟨1, 111, 0, true, 0⟩ rfl (by decide) rfl
  exact ⟨rfl, ⟨s', h1, h3⟩, h4, h5 5 202 203⟩

/-- C9: cancelling an owned SCHEDULED appointment fails with
`CancellationWindowClosed` exactly when less than 24 hours (86400000 ms)
remain before its date+time, and otherwise succeeds, setting the status to
CANCELLED and leaving the availability row for its key unbooked. -/
theorem c9_cancel_lead_time (s : Sched) (uid aid : Nat) (now : Int) (appt : Appt)
    (hfind : findScheduled s uid aid = some appt) :
    (apptMs appt.key - now < 86400000 →
      cancelAppointment s uid aid now = .error .cancellationWindowClosed) ∧
    (86400000 ≤ apptMs appt.key - now →
      ∃ s', cancelAppointment s uid aid now = .ok s' ∧
        (∀ a ∈ s'.appointments, a.id = aid → a.status = .cancelled) ∧
        slotBooked s' appt.key = false) := by
  constructor
  · intro h
    simp [cancelAppointment, hfind, h]
  · intro h
    have hlt : ¬ apptMs appt.key - now < 86400000 := not_lt.mpr h
    refine ⟨{ s with
        appointments := s.appointments.map (fun a =>
          if a.id = aid then { a with status := .cancelled } else a),
        slots := setSlotBooked s.slots appt.key false }, ?_, ?_, ?_⟩
    · simp [cancelAppointment, hfind, hlt]
    · intro a' ha' hid
      simp only [List.mem_map] at ha'
      rcases ha' with ⟨a, ha, rfl⟩
      by_cases hid2 : a.id = aid
      · rw [if_pos hid2]
      · rw [if_neg hid2] at hid ⊢
        exact absurd hid hid2
    · exact rowsBooked_set_self_false s.slots appt.key

/-- C9 witness: appointment 1 of `demoSched` (user 5, epoch-day 100,
minute 540) cancels successfully at time 0, and fails with the window
error when attempted one millisecond inside the 24-hour window. -/
theorem c9_witness :
    findScheduled demoSched 5 1 = some demoAppt ∧
    cancelAppointment demoSched 5 1 (apptMs demoAppt.key - 86399999) =
      .error .cancellationWindowClosed ∧
    ∃ s', cancelAppointment demoSched 5 1 0 = .ok s' ∧
      (∀ a ∈ s'.appointments, a.id = 1 → a.status = .cancelled) ∧
      slotBooked s' demoAppt.key = false := by
  refine ⟨rfl, ?_, ?_⟩
  · exact (c9_cancel_lead_time demoSched 5 1 (apptMs demoAppt.key - 86399999)
      demoAppt rfl).1 (by decide)
  · exact (c9_cancel_lead_time demoSched 5 1 0 demoAppt rfl).2 (by decide)

/-- C3 amended: a reschedule whose destination differs from the
appointment's current (date, time) and is unavailable — occupied by another
SCHEDULED appointment or without a free availability row — fails with one
of the two slot-conflict errors (`SlotUnavailable` in the spec's taxonomy)
before the transaction runs, so the store, the original slot, and the
original appointment are untouched; a fully specified reschedule onto the
appointment's own current slot, however, skips the checks and succeeds as a
no-op. -/
theorem c3_reschedule_all_or_nothing (s : Sched) (uid aid d t : Nat)
    (nd : Option Nat) (appt : Appt)
    (hfind : findScheduled s uid aid = some appt)
    (hdiff : ¬(d = appt.key.date ∧ t = appt.key.time))
    (hunavail :
      (∃ b ∈ s.appointments, b.status = .scheduled ∧
        b.key = (⟨appt.key.doctorId, d, t⟩ : Key) ∧ b.id ≠ aid) ∨
      ∀ row, lookupSlot s ⟨appt.key.doctorId, d, t⟩ = some row → row.isBooked = true) :
    ∃ e, updateAppointment s uid aid (some d) (some t) nd = .error e ∧
      (e = SchedErr.newSlotTakenByAppointment ∨ e = SchedErr.newSlotAgendaUnavailable) := by
  have hdest : destKey appt (some d) (some t) = ⟨appt.key.doctorId, d, t⟩ := rfl
  have hcond : reschedChecksNeeded appt (some d) (some t) = true := by
    rw [reschedChecksNeeded]
    by_cases hd : d = appt.key.date
    · have ht : t ≠ appt.key.time := fun ht => hdiff ⟨hd, ht⟩
      simp [hd, ht]
    · simp [hd]
  have hpre : ∃ e, updatePrecheck s appt aid (some d) (some t) = some e ∧
      (e = SchedErr.newSlotTakenByAppointment ∨ e = SchedErr.newSlotAgendaUnavailable) := by
    rw [updatePrecheck, if_pos hcond]
    by_cases hex : (s.appointments.find? (fun a =>
        decide (a.key = destKey appt (some d) (some t)) &&
        decide (a.status = ApptStatus.scheduled) && decide (a.id ≠ aid))).isSome = true
    · exact ⟨.newSlotTakenByAppointment, by rw [if_pos hex], Or.inl rfl⟩
    · rw [if_neg hex]
      rcases hunavail with ⟨b, hb, hsched, hkey, hbid⟩ | hrow
      · exfalso
        apply hex
        rw [List.find?_isSome]
        exact ⟨b, hb, by simp [hdest, hsched, hkey, hbid]⟩
      · cases hlu : lookupSlot s (destKey appt (some d) (some t)) with
        | none => exact ⟨.newSlotAgendaUnavailable, rfl, Or.inr rfl⟩
        | some row =>
          have hbk := hrow row (by rw [← hdest]; exact hlu)
          exact ⟨.newSlotAgendaUnavailable, by simp [hbk], Or.inr rfl⟩
  rcases hpre with ⟨e, he, hor⟩
  exact ⟨e, by simp [updateAppointment, hfind, he], hor⟩

/-- C3 amended witness: rescheduling appointment 1 of `demoSched` to
(epoch-day 102, minute 540), where no availability row exists, fails with a
slot-conflict error. -/
theorem c3_amended_witness :
    findScheduled demoSched 5 1 = some demoAppt ∧
    ∃ e, updateAppointment demoSched 5 1 (some 102) (some 540) none = .error e ∧
      (e = SchedErr.newSlotTakenByAppointment ∨ e = SchedErr.newSlotAgendaUnavailable) := by
  refine ⟨rfl, ?_⟩
  refine c3_reschedule_all_or_nothing demoSched 5 1 102 540 none demoAppt rfl
    (by decide) (Or.inr ?_)
  intro row h
  rw [show lookupSlot demoSched ⟨demoAppt.key.doctorId, 102, 540⟩ = none from rfl] at h
  exact Option.noConfusion h

/-- C3 counterexample: in `demoSched` the destination slot of the request —
the appointment's own current slot, supplied explicitly — is booked (not
free in the doctor's availability), yet the reschedule succeeds instead of
failing with a slot-conflict error: the source skips the availability
checks entirely when the supplied pair matches the stored one. -/
theorem c3_counterexample_noop_reschedule_succeeds :
    lookupSlot demoSched ⟨1, 100, 540⟩ = some ⟨⟨1, 100, 540⟩, true⟩ ∧
    demoAppt.key = ⟨1, 100, 540⟩ ∧
    updateAppointment demoSched 5 1 (some 100) (some 540) none = .ok c3succState :=
  ⟨rfl, rfl, rfl⟩

/-! ## Helper lemmas for the sequential invariant -/

theorem schedAt_none_facts {s : Sched} {k : Key} (h : schedAt s k = none) :
    ∀ a ∈ s.appointments, a.status = .scheduled → a.key ≠ k := by
  rw [schedAt, List.find?_eq_none] at h
  intro a ha hs hk
  have := h a ha
  simp [hk, hs] at this

theorem createPrecheck_none_facts {s : Sched} {r : CreateReq}
    (h : createPrecheck s r = none) :
    schedAt s (reqKey r) = none ∧
      ∃ row, lookupSlot s (reqKey r) = some row ∧ row.isBooked = false := by
  rw [createPrecheck] at h
  split at h
  · exact absurd h (by simp)
  · split at h
    · exact absurd h (by simp)
    · split at h
      · exact absurd h (by simp)
      · rename_i hsched
        refine ⟨Option.not_isSome_iff_eq_none.mp hsched, ?_⟩
        cases hlu : lookupSlot s (reqKey r) with
        | none => rw [hlu] at h; exact absurd h (by simp)
        | some row =>
          rw [hlu] at h
          by_cases hbk : row.isBooked = true
          · simp [hbk] at h
          · exact ⟨row, rfl, by simpa using hbk⟩

theorem updatePrecheck_none_facts {s : Sched} {appt : Appt} {aid : Nat}
    {dd td : Option Nat}
    (h : updatePrecheck s appt aid dd td = none)
    (hc : reschedChecksNeeded appt dd td = true) :
    (∀ a ∈ s.appointments, a.status = .scheduled → a.key = destKey appt dd td →
      a.id = aid) ∧
    ∃ row, lookupSlot s (destKey appt dd td) = some row ∧ row.isBooked = false := by
  rw [updatePrecheck, if_pos hc] at h
  by_cases hex : (s.appointments.find? (fun a =>
      decide (a.key = destKey appt dd td) && decide (a.status = ApptStatus.scheduled) &&
      decide (a.id ≠ aid))).isSome = true
  · rw [if_pos hex] at h
    exact absurd h (by simp)
  · rw [if_neg hex] at h
    constructor
    · intro a ha hs hk
      by_contra hne
      exact hex (List.find?_isSome.mpr ⟨a, ha, by simp [hk, hs, hne]⟩)
    · cases hlu : lookupSlot s (destKey appt dd td) with
      | none => rw [hlu] at h; exact absurd h (by simp)
      | some row =>
        rw [hlu] at h
        by_cases hbk : row.isBooked = true
        · simp [hbk] at h
        · exact ⟨row, rfl, by simpa using hbk⟩

theorem rowsBooked_true_isSome {rows : List SlotRow} {k : Key}
    (h : rowsBooked rows k = true) : (findRow rows k).isSome = true := by
  rw [rowsBooked] at h
  cases hfr : findRow rows k with
  | none => rw [hfr] at h; exact absurd h (by simp)
  | some row => rfl

theorem scheduledInAt_map_iff (l : List Appt) (g : Appt → Appt)
    (hkey : ∀ a ∈ l, (g a).key = a.key)
    (hst : ∀ a ∈ l, (g a).status = a.status) (k : Key) :
    scheduledInAt (l.map g) k ↔ scheduledInAt l k := by
  rw [scheduledInAt, scheduledInAt]
  constructor
  · rintro ⟨a', ha', hs, hk⟩
    simp only [List.mem_map] at ha'
    rcases ha' with ⟨a, ha, rfl⟩
    exact ⟨a, ha, by rw [← hst a ha]; exact hs, by rw [← hkey a ha]; exact hk⟩
  · rintro ⟨a, ha, hs, hk⟩
    exact ⟨g a, List.mem_map_of_mem g ha,
      by rw [hst a ha]; exact hs, by rw [hkey a ha]; exact hk⟩

theorem idBound_map_gen (l : List Appt) (n : Nat) (g : Appt → Appt)
    (hidp : ∀ a ∈ l, (g a).id = a.id)
    (h : ∀ a ∈ l, a.id < n) :
    ∀ a ∈ l.map g, a.id < n := by
  intro a' ha'
  simp only [List.mem_map] at ha'
  rcases ha' with ⟨a, ha, rfl⟩
  rw [hidp a ha]
  exact h a ha

theorem idInj_map_gen (l : List Appt) (g : Appt → Appt)
    (hidp : ∀ a ∈ l, (g a).id = a.id)
    (h : ∀ a ∈ l, ∀ b ∈ l, a.id = b.id → a = b) :
    ∀ a ∈ l.map g, ∀ b ∈ l.map g, a.id = b.id → a = b := by
  intro a' ha' b' hb' heq
  simp only [List.mem_map] at ha' hb'
  rcases ha' with ⟨a, ha, rfl⟩
  rcases hb' with ⟨b, hb, rfl⟩
  rw [h a ha b hb (by rw [← hidp a ha, ← hidp b hb]; exact heq)]

theorem schedUniq_map_gen (l : List Appt) (g : Appt → Appt)
    (hkey : ∀ a ∈ l, (g a).key = a.key)
    (hst : ∀ a ∈ l, (g a).status = a.status)
    (h : ∀ a ∈ l, ∀ b ∈ l, a.status = .scheduled → b.status = .scheduled →
      a.key = b.key → a = b) :
    ∀ a ∈ l.map g, ∀ b ∈ l.map g, a.status = .scheduled → b.status = .scheduled →
      a.key = b.key → a = b := by
  intro a' ha' b' hb' hs1 hs2 hkeq
  simp only [List.mem_map] at ha' hb'
  rcases ha' with ⟨a, ha, rfl⟩
  rcases hb' with ⟨b, hb, rfl⟩
  rw [h a ha b hb (by rw [← hst a ha]; exact hs1) (by rw [← hst b hb]; exact hs2)
    (by rw [← hkey a ha, ← hkey b hb]; exact hkeq)]

theorem schedInv_init (s : Sched) (h : SchedInit s) : SchedInv s := by
  obtain ⟨ha, hs⟩ := h
  refine ⟨?_, ?_, ?_, ?_⟩
  · intro a hmem; rw [ha] at hmem; cases hmem
  · intro a hmem; rw [ha] at hmem; cases hmem
  · intro a hmem; rw [ha] at hmem; cases hmem
  · intro k
    constructor
    · intro hx
      rw [ScheduledAt, scheduledInAt] at hx
      obtain ⟨a, hmem, -⟩ := hx
      rw [ha] at hmem
      cases hmem
    · intro hbk
      exfalso
      rw [slotBooked, rowsBooked] at hbk
      cases hfr : findRow s.slots k with
      | none => rw [hfr] at hbk; simp at hbk
      | some row =>
        rw [hfr] at hbk
        have hfalse := hs row (findRow_eq_some_facts hfr).1
        simp [hfalse] at hbk

theorem schedInv_create (s : Sched) (r : CreateReq) (hinv : SchedInv s) :
    SchedInv (applySchedOp s (.create r)) := by
  rw [applySchedOp]
  cases hpre : createPrecheck s r with
  | some e => simpa [createAppointment, hpre] using hinv
  | none =>
    obtain ⟨hschedAt, row, hlu, hbk⟩ := createPrecheck_none_facts hpre
    have hnosched := schedAt_none_facts hschedAt
    have hgoal : (match createAppointment s r with | .ok s' => s' | .error _ => s) =
        createCommit s r := by
      simp [createAppointment, hpre]
    rw [hgoal, createCommit]
    refine ⟨?_, ?_, ?_, ?_⟩
    · intro a ha
      simp only [List.mem_append, List.mem_singleton] at ha
      rcases ha with ha | rfl
      · exact Nat.lt_succ_of_lt (hinv.idBound a ha)
      · exact Nat.lt_succ_self _
    · intro a ha b hb heq
      simp only [List.mem_append, List.mem_singleton] at ha hb
      rcases ha with ha | rfl <;> rcases hb with hb | rfl
      · exact hinv.idInj a ha b hb heq
      · exact absurd heq (Nat.ne_of_lt (hinv.idBound a ha))
      · exact absurd heq.symm (Nat.ne_of_lt (hinv.idBound b hb))
      · rfl
    · intro a ha b hb hs1 hs2 hkeq
      simp only [List.mem_append, List.mem_singleton] at ha hb
      rcases ha with ha | rfl <;> rcases hb with hb | rfl
      · exact hinv.schedUniq a ha b hb hs1 hs2 hkeq
      · exact absurd (by simpa using hkeq) (hnosched a ha hs1)
      · exact absurd (by simpa using hkeq.symm) (hnosched b hb hs2)
      · rfl
    · intro k
      by_cases hk : k = reqKey r
      · subst hk
        constructor
        · intro _
          exact rowsBooked_set_self_true s.slots (reqKey r)
            (by rw [show findRow s.slots (reqKey r) = some row from hlu]; rfl)
        · intro _
          exact ⟨⟨s.nextId, r.userId, r.dependentId, r.unitId, r.specialtyId,
            reqKey r, r.notes, .scheduled⟩,
            List.mem_append_right _ (List.mem_singleton.mpr rfl), rfl, rfl⟩
      · have hslot : slotBooked { s with
            appointments := s.appointments ++ [⟨s.nextId, r.userId, r.dependentId,
              r.unitId, r.specialtyId, reqKey r, r.notes, .scheduled⟩],
            slots := setSlotBooked s.slots (reqKey r) true,
            nextId := s.nextId + 1 } k = slotBooked s k :=
          rowsBooked_set_other s.slots true hk
        rw [ScheduledAt, scheduledInAt, hslot]
        constructor
        · rintro ⟨a, ha, hs1, hk1⟩
          simp only [List.mem_append, List.mem_singleton] at ha
          rcases ha with ha | rfl
          · exact (hinv.corr k).mp ⟨a, ha, hs1, hk1⟩
          · exact absurd hk1.symm hk
        · intro hbk2
          obtain ⟨a, ha, hs1, hk1⟩ := (hinv.corr k).mpr hbk2
          exact ⟨a, List.mem_append_left _ ha, hs1, hk1⟩

theorem schedInv_cancel (s : Sched) (uid aid : Nat) (now : Int) (hinv : SchedInv s) :
    SchedInv (applySchedOp s (.cancel uid aid now)) := by
  rw [applySchedOp]
  cases hfind : findScheduled s uid aid with
  | none => simpa [cancelAppointment, hfind] using hinv
  | some appt =>
    obtain ⟨hmem, hid, huid, hsched⟩ := findScheduled_eq_some_facts hfind
    by_cases hwin : apptMs appt.key - now < 86400000
    · simpa [cancelAppointment, hfind, hwin] using hinv
    · have hgoal : (match cancelAppointment s uid aid now with
          | .ok s' => s' | .error _ => s) =
          { s with
            appointments := s.appointments.map (fun a =>
              if a.id = aid then { a with status := .cancelled } else a),
            slots := setSlotBooked s.slots appt.key false } := by
        simp [cancelAppointment, hfind, hwin]
      rw [hgoal]
      have hidp : ∀ a : Appt,
          ((if a.id = aid then { a with status := ApptStatus.cancelled } else a)).id = a.id := by
        intro a
        by_cases h2 : a.id = aid <;> simp [h2]
      refine ⟨?_, ?_, ?_, ?_⟩
      · exact idBound_map_gen _ _ _ (fun a _ => hidp a) hinv.idBound
      · exact idInj_map_gen _ _ (fun a _ => hidp a) hinv.idInj
      · intro a' ha' b' hb' hs1 hs2 hkeq
        simp only [List.mem_map] at ha' hb'
        rcases ha' with ⟨a, ha, rfl⟩
        rcases hb' with ⟨b, hb, rfl⟩
        by_cases h2 : a.id = aid
        · rw [if_pos h2] at hs1
          exact absurd hs1 (by simp)
        · by_cases h3 : b.id = aid
          · rw [if_pos h3] at hs2
            exact absurd hs2 (by simp)
          · rw [if_neg h2] at hs1 hkeq ⊢
            rw [if_neg h3] at hs2 hkeq ⊢
            rw [hinv.schedUniq a ha b hb hs1 hs2 hkeq]
      · intro k
        by_cases hk : k = appt.key
        · subst hk
          constructor
          · rintro ⟨a', ha', hs1, hk1⟩
            exfalso
            simp only [List.mem_map] at ha'
            rcases ha' with ⟨a, ha, rfl⟩
            by_cases h2 : a.id = aid
            · rw [if_pos h2] at hs1
              exact absurd hs1 (by simp)
            · rw [if_neg h2] at hs1 hk1
              exact h2 (by rw [hinv.schedUniq a ha appt hmem hs1 hsched hk1, hid])
          · intro hbk
            exfalso
            have : slotBooked { s with
                appointments := s.appointments.map (fun a =>
                  if a.id = aid then { a with status := ApptStatus.cancelled } else a),
                slots := setSlotBooked s.slots appt.key false } appt.key = false :=
              rowsBooked_set_self_false s.slots appt.key
            rw [this] at hbk
            exact Bool.noConfusion hbk
        · have hslot : slotBooked { s with
              appointments := s.appointments.map (fun a =>
                if a.id = aid then { a with status := ApptStatus.cancelled } else a),
              slots := setSlotBooked s.slots appt.key false } k = slotBooked s k :=
            rowsBooked_set_other s.slots false hk
          rw [ScheduledAt, scheduledInAt, hslot]
          constructor
          · rintro ⟨a', ha', hs1, hk1⟩
            simp only [List.mem_map] at ha'
            rcases ha' with ⟨a, ha, rfl⟩
            by_cases h2 : a.id = aid
            · rw [if_pos h2] at hs1
              exact absurd hs1 (by simp)
            · rw [if_neg h2] at hs1 hk1
              exact (hinv.corr k).mp ⟨a, ha, hs1, hk1⟩
          · intro hbk
            obtain ⟨a, ha, hs1, hk1⟩ := (hinv.corr k).mpr hbk
            have h2 : ¬ a.id = aid := by
              intro h2
              have : a = appt := hinv.idInj a ha appt hmem (by rw [h2, hid])
              exact hk (by rw [← hk1, this])
            refine ⟨a, ?_, hs1, hk1⟩
            have : (if a.id = aid then { a with status := ApptStatus.cancelled } else a) = a :=
              if_neg h2
            rw [← this]
            exact List.mem_map_of_mem _ ha

theorem schedInv_reschedule (s : Sched) (uid aid : Nat) (dd td nd : Option Nat)
    (hinv : SchedInv s) :
    SchedInv (applySchedOp s (.reschedule uid aid dd td nd)) := by
  rw [applySchedOp]
  cases hfind : findScheduled s uid aid with
  | none => simpa [updateAppointment, hfind] using hinv
  | some appt =>
    obtain ⟨hmem, hid, huid, hsched⟩ := findScheduled_eq_some_facts hfind
    cases hpre : updatePrecheck s appt aid dd td with
    | some e => simpa [updateAppointment, hfind, hpre] using hinv
    | none =>
      have hgoal : (match updateAppointment s uid aid dd td nd with
          | .ok s' => s' | .error _ => s) = rescheduleCommit s appt aid dd td nd := by
        simp [updateAppointment, hfind, hpre]
      rw [hgoal, rescheduleCommit]
      have hgaid : ∀ a ∈ s.appointments, a.id = aid → a = appt := fun a ha h2 =>
        hinv.idInj a ha appt hmem (by rw [h2, hid])
      have hidp : ∀ a : Appt, (applyFields aid dd td nd a).id = a.id := by
        intro a
        by_cases h2 : a.id = aid <;> simp [applyFields, h2]
      have hstp : ∀ a : Appt, (applyFields aid dd td nd a).status = a.status := by
        intro a
        by_cases h2 : a.id = aid <;> simp [applyFields, h2]
      have hkeyoth : ∀ a : Appt, ¬ a.id = aid → applyFields aid dd td nd a = a := by
        intro a h2
        rw [applyFields.eq_def, if_neg h2]
      have hbookedOld : slotBooked s appt.key = true :=
        (hinv.corr appt.key).mp ⟨appt, hmem, hsched, rfl⟩
      by_cases hres : (dd.isSome || td.isSome) = true
      · rw [if_pos hres]
        by_cases hchk : reschedChecksNeeded appt dd td = true
        · -- the availability checks ran and passed: a genuine move to a new key
          obtain ⟨hdestuniq, row, hlu, hbkfree⟩ := updatePrecheck_none_facts hpre hchk
          have hfreeNew : slotBooked s (destKey appt dd td) = false := by
            rw [slotBooked, rowsBooked,
              show findRow s.slots (destKey appt dd td) = some row from hlu]
            exact hbkfree
          have hkN : destKey appt dd td ≠ appt.key := by
            intro he
            rw [he, hbookedOld] at hfreeNew
            exact Bool.noConfusion hfreeNew
          have hkeyaid : ∀ a ∈ s.appointments, a.id = aid →
              (applyFields aid dd td nd a).key = destKey appt dd td := by
            intro a ha h2
            rw [applyFields.eq_def, if_pos h2, hgaid a ha h2]
            rfl
          refine ⟨?_, ?_, ?_, ?_⟩
          · exact idBound_map_gen _ _ _ (fun a _ => hidp a) hinv.idBound
          · exact idInj_map_gen _ _ (fun a _ => hidp a) hinv.idInj
          · intro a' ha' b' hb' hs1 hs2 hkeq
            simp only [List.mem_map] at ha' hb'
            rcases ha' with ⟨a, ha, rfl⟩
            rcases hb' with ⟨b, hb, rfl⟩
            by_cases h2 : a.id = aid <;> by_cases h3 : b.id = aid
            · rw [hgaid a ha h2, hgaid b hb h3]
            · exfalso
              rw [hkeyoth b h3] at hs2 hkeq
              rw [hkeyaid a ha h2] at hkeq
              exact h3 (hdestuniq b hb hs2 hkeq.symm)
            · exfalso
              rw [hkeyoth a h2] at hs1 hkeq
              rw [hkeyaid b hb h3] at hkeq
              exact h2 (hdestuniq a ha hs1 hkeq)
            · rw [hkeyoth a h2] at hs1 hkeq ⊢
              rw [hkeyoth b h3] at hs2 hkeq ⊢
              exact hinv.schedUniq a ha b hb hs1 hs2 hkeq
          · intro k
            by_cases hk1 : k = destKey appt dd td
            · subst hk1
              constructor
              · intro _
                refine rowsBooked_set_self_true _ _ ?_
                rw [findRow_set_isSome,
                  show findRow s.slots (destKey appt dd td) = some row from hlu]
                rfl
              · intro _
                refine ⟨_, List.mem_map_of_mem _ hmem, ?_, hkeyaid appt hmem hid⟩
                rw [hstp]
                exact hsched
            · by_cases hk2 : k = appt.key
              · subst hk2
                constructor
                · rintro ⟨a', ha', hs1, hka⟩
                  exfalso
                  simp only [List.mem_map] at ha'
                  rcases ha' with ⟨a, ha, rfl⟩
                  by_cases h2 : a.id = aid
                  · rw [hkeyaid a ha h2] at hka
                    exact hkN hka
                  · rw [hkeyoth a h2] at hs1 hka
                    exact h2 (by rw [hinv.schedUniq a ha appt hmem hs1 hsched hka, hid])
                · intro hbk
                  exfalso
                  have hfb : rowsBooked (setSlotBooked (setSlotBooked s.slots appt.key false)
                      (destKey appt dd td) true) appt.key = false := by
                    rw [rowsBooked_set_other _ _ (Ne.symm hkN)]
                    exact rowsBooked_set_self_false _ _
                  exact Bool.noConfusion (hfb.symm.trans hbk)
              · have hrw : rowsBooked (setSlotBooked (setSlotBooked s.slots appt.key false)
                    (destKey appt dd td) true) k = rowsBooked s.slots k := by
                  rw [rowsBooked_set_other _ _ hk1, rowsBooked_set_other _ _ hk2]
                constructor
                · rintro ⟨a', ha', hs1, hka⟩
                  simp only [List.mem_map] at ha'
                  rcases ha' with ⟨a, ha, rfl⟩
                  by_cases h2 : a.id = aid
                  · rw [hkeyaid a ha h2] at hka
                    exact absurd hka.symm hk1
                  · rw [hkeyoth a h2] at hs1 hka
                    exact hrw.trans ((hinv.corr k).mp ⟨a, ha, hs1, hka⟩)
                · intro hbk
                  have hbk2 : slotBooked s k = true := hrw.symm.trans hbk
                  obtain ⟨a, ha, hs1, hka⟩ := (hinv.corr k).mpr hbk2
                  have h2 : ¬ a.id = aid := fun h2 => hk2 (by rw [← hka, hgaid a ha h2])
                  refine ⟨_, List.mem_map_of_mem _ ha, ?_, ?_⟩
                  · rw [hstp]
                    exact hs1
                  · rw [hkeyoth a h2]
                    exact hka
        · -- checks skipped: the request matches the stored pair exactly (no-op move)
          have hb : (decide (dd = some appt.key.date) &&
              decide (td = some appt.key.time)) = true := by
            rw [reschedChecksNeeded, hres, Bool.true_and] at hchk
            simpa using hchk
          simp only [Bool.and_eq_true, decide_eq_true_eq] at hb
          obtain ⟨hdd, htd⟩ := hb
          have hdest : destKey appt dd td = appt.key := by
            rw [destKey, hdd, htd]
            rfl
          rw [hdest]
          have hkeyp : ∀ a ∈ s.appointments, (applyFields aid dd td nd a).key = a.key := by
            intro a ha
            by_cases h2 : a.id = aid
            · rw [applyFields.eq_def, if_pos h2, hgaid a ha h2, hdd, htd]
              rfl
            · rw [hkeyoth a h2]
          refine ⟨idBound_map_gen _ _ _ (fun a _ => hidp a) hinv.idBound,
            idInj_map_gen _ _ (fun a _ => hidp a) hinv.idInj,
            schedUniq_map_gen _ _ hkeyp (fun a _ => hstp a) hinv.schedUniq, ?_⟩
          intro k
          have htrans := scheduledInAt_map_iff s.appointments _ hkeyp (fun a _ => hstp a) k
          by_cases hk : k = appt.key
          · subst hk
            constructor
            · intro _
              refine rowsBooked_set_self_true _ _ ?_
              rw [findRow_set_isSome]
              exact rowsBooked_true_isSome hbookedOld
            · intro _
              exact htrans.mpr ⟨appt, hmem, hsched, rfl⟩
          · have hrw : rowsBooked (setSlotBooked (setSlotBooked s.slots appt.key false)
                appt.key true) k = rowsBooked s.slots k := by
              rw [rowsBooked_set_other _ _ hk, rowsBooked_set_other _ _ hk]
            have h2 : (rowsBooked (setSlotBooked (setSlotBooked s.slots appt.key false)
                appt.key true) k = true) ↔ (slotBooked s k = true) := by
              rw [hrw]
              exact Iff.rfl
            exact Iff.trans (Iff.trans htrans (hinv.corr k)) h2.symm
      · rw [if_neg hres]
        have hdd : dd = none := by
          cases dd with
          | none => rfl
          | some x => simp at hres
        have htd : td = none := by
          cases td with
          | none => rfl
          | some x => simp at hres
        subst hdd
        subst htd
        have hkeyp : ∀ a ∈ s.appointments,
            (applyFields aid none none nd a).key = a.key := by
          intro a _
          by_cases h2 : a.id = aid <;> simp [applyFields, h2]
        refine ⟨idBound_map_gen _ _ _ (fun a _ => hidp a) hinv.idBound,
          idInj_map_gen _ _ (fun a _ => hidp a) hinv.idInj,
          schedUniq_map_gen _ _ hkeyp (fun a _ => hstp a) hinv.schedUniq, ?_⟩
        intro k
        exact Iff.trans (scheduledInAt_map_iff s.appointments _ hkeyp (fun a _ => hstp a) k)
          (hinv.corr k)

theorem schedInv_reachable (s : Sched) (h : SchedReachable s) : SchedInv s := by
  induction h with
  | init s hs => exact schedInv_init s hs
  | step s op _ ih =>
    cases op with
    | create r => exact schedInv_create s r ih
    | reschedule uid aid dd td nd => exact schedInv_reschedule s uid aid dd td nd ih
    | cancel uid aid now => exact schedInv_cancel s uid aid now ih

/-- C2 amended: in every store reachable by sequential execution of whole
create/reschedule/cancel operations from an initial store (no appointments,
no booked rows), a SCHEDULED appointment occupies a key exactly when that
key's availability row is booked — each operation flips the appointment and
the slot inside one transaction.  (Under interleaved execution the
correspondence can break; see the counterexample.) -/
theorem c2_amended_sequential_correspondence (s : Sched) (h : SchedReachable s) (k : Key) :
    ScheduledAt s k ↔ slotBooked s k = true :=
  (schedInv_reachable s h).corr k

/-- C2 amended witness: the store reached by one successful create against
the empty grid is sequentially reachable, and there the correspondence
instantiates to a booked row exactly where the new SCHEDULED appointment
sits. -/
theorem c2_amended_witness :
    SchedReachable demoSeq1 ∧ (ScheduledAt demoSeq1 raceKey ↔ slotBooked demoSeq1 raceKey = true) := by
  have hreach : SchedReachable demoSeq1 :=
    SchedReachable.step raceDb0 (SchedOp.create (raceReq 10))
      (SchedReachable.init raceDb0 ⟨rfl, by decide⟩)
  exact ⟨hreach, c2_amended_sequential_correspondence demoSeq1 hreach raceKey⟩

end PortalSpec
